import Mathlib

/-!
Verification of the blackjack rules engine (`src/blackjack.py`) against its
natural-language specification.  Each Python class and method is embedded as
an executable Lean definition; randomness (the shuffle) is modelled by
passing the shuffled order as an explicit list parameter, and Python
exceptions (out-of-range list indexing, popping an empty list) are modelled
with `Option`.
-/

namespace BJ

/-- Suits, as in `Deck.reset`. -/
inductive Suit
  | hearts | diamonds | clubs | spades
deriving DecidableEq, Repr

/-- Ranks: the thirteen card values `'2' .. '10', 'J', 'Q', 'K', 'A'`. -/
inductive Rank
  | r2 | r3 | r4 | r5 | r6 | r7 | r8 | r9 | r10 | jack | queen | king | ace
deriving DecidableEq, Repr

/-- `Card`: suit and value (`Card.__init__`). -/
structure Card where
  suit : Suit
  value : Rank
deriving DecidableEq, Repr

/-- `Card.get_value`: 10 for J/Q/K, 11 for A, face value otherwise. -/
def Card.get_value (c : Card) : Nat :=
  match c.value with
  | .jack | .queen | .king => 10
  | .ace => 11
  | .r2 => 2
  | .r3 => 3
  | .r4 => 4
  | .r5 => 5
  | .r6 => 6
  | .r7 => 7
  | .r8 => 8
  | .r9 => 9
  | .r10 => 10

/-- The suit list of `Deck.reset`. -/
def suitList : List Suit := [.hearts, .diamonds, .clubs, .spades]

/-- The value list of `Deck.reset`. -/
def rankList : List Rank :=
  [.r2, .r3, .r4, .r5, .r6, .r7, .r8, .r9, .r10, .jack, .queen, .king, .ace]

/-- The fresh 52-card deck built by `Deck.reset` before shuffling
(the comprehension `[Card(suit, value) for suit in suits for value in values]`). -/
def fullDeck : List Card :=
  suitList.flatMap (fun s => rankList.map (fun v => ⟨s, v⟩))

/-- `Deck`: a stack of cards, top = end of the list.  `original_size` is the
constant 52. -/
structure Deck where
  cards : List Card
deriving DecidableEq, Repr

/-- `original_size` field of `Deck` (always 52). -/
def originalSize : Nat := 52

/-- `Deck.reset` followed by `Deck.shuffle`: the deck is repopulated with a
full 52-card set in random order.  The random permutation is supplied as the
`shuffled` parameter; theorems that depend on the deck being full take the
hypothesis `shuffled.Perm fullDeck`. -/
def Deck.reset (shuffled : List Card) : Deck := ⟨shuffled⟩

/-- `Deck.should_shuffle`: true when 50% or fewer cards remain. -/
def Deck.should_shuffle (d : Deck) : Bool :=
  decide (d.cards.length ≤ originalSize / 2)

/-- `Deck.deal`: if the deck is empty, `reset` it first; then pop the last
card.  `none` models the (unreachable in Python, where `reset` always yields
52 cards) failure of popping from an empty list. -/
def Deck.deal (shuffled : List Card) (d : Deck) : Option (Card × Deck) :=
  let cs := if d.cards = [] then (Deck.reset shuffled).cards else d.cards
  match cs.getLast? with
  | none => none
  | some c => some (c, ⟨cs.dropLast⟩)

/-- `Deck.get_remaining_cards`. -/
def Deck.get_remaining_cards (d : Deck) : Nat := d.cards.length

/-- `Hand`: an ordered list of cards plus a bet size. -/
structure Hand where
  cards : List Card
  bet_size : Int
deriving DecidableEq, Repr

/-- `Hand.add_card`: append a card. -/
def Hand.add_card (h : Hand) (c : Card) : Hand :=
  ⟨h.cards ++ [c], h.bet_size⟩

/-- The ace loop of `Hand.get_value`: for each ace, add 11 if that keeps the
running total ≤ 21, otherwise add 1 (`for _ in range(aces): ...`). -/
def addAces : Nat → Nat → Nat
  | 0, value => value
  | n + 1, value => addAces n (if value + 11 ≤ 21 then value + 11 else value + 1)

/-- `Hand.get_value`: sum the non-ace card values, then run the ace loop. -/
def Hand.get_value (h : Hand) : Nat :=
  let value := h.cards.foldl
    (fun acc c => if c.value = Rank.ace then acc else acc + c.get_value) 0
  let aces := h.cards.countP (fun c => decide (c.value = Rank.ace))
  addAces aces value

/-- `Hand.is_bust`: value over 21. -/
def Hand.is_bust (h : Hand) : Bool :=
  decide (h.get_value > 21)

/-- `Hand.is_blackjack`: exactly two cards totalling 21.  The source carries
the comment `#TODO: Check if the hand was split. If so, do not count it as a
blackjack.` — no such check is implemented. -/
def Hand.is_blackjack (h : Hand) : Bool :=
  decide (h.cards.length = 2 ∧ h.get_value = 21)

/-- `Hand.clear`: remove all cards and reset the hand's bet. -/
def Hand.clear (_h : Hand) : Hand := ⟨[], 0⟩

/-- The spec's reference demotion loop: starting from a total that counts
every ace as 11, demote aces from 11 to 1 (subtract 10) one at a time while
the total exceeds 21 and a demotable ace remains. -/
def demote : Nat → Nat → Nat
  | 0, total => total
  | n + 1, total => if 21 < total then demote n (total - 10) else total

/-- The spec's reference hand valuation: sum all non-ace point values, count
every ace as 11, then demote aces while the total exceeds 21. -/
def refValue (cards : List Card) : Nat :=
  let base := cards.foldl
    (fun acc c => if c.value = Rank.ace then acc else acc + c.get_value) 0
  let aces := cards.countP (fun c => decide (c.value = Rank.ace))
  demote aces (base + 11 * aces)

/-- The hand {10, A, A}. -/
def handTenAceAce : Hand :=
  ⟨[⟨.hearts, .r10⟩, ⟨.spades, .ace⟩, ⟨.clubs, .ace⟩], 0⟩

/-- C1: `Hand.get_value` does NOT equal the reference valuation.  On the
hand {10, A, A} the code's greedy per-ace rule first counts an ace as 11
(10 + 11 = 21 ≤ 21) and is then forced to add 1 for the second ace, yielding
22 (a bust), while the reference valuation demotes both aces and yields 12.
The code also disagrees with the spec's own example in §8 ({A,A,A,8} → 11;
the code gives 21). -/
theorem c1_ace_valuation_bug :
    handTenAceAce.get_value = 22 ∧ refValue handTenAceAce.cards = 12 ∧
    handTenAceAce.is_bust = true := by
  decide

/-- `BlackjackGame.__init__`: the full game state. -/
structure Game where
  deck : Deck
  player_hand : Hand
  dealer_hand : Hand
  game_over : Bool
  player_wins : Nat
  dealer_wins : Nat
  ties : Nat
  can_double : Bool
  can_split : Bool
  split_hands : List Hand
  current_hand_index : Nat
  is_split_game : Bool
  bet_size : Int
  total_winnings : Int
  doubled : Bool
deriving DecidableEq, Repr

/-- The state built by `BlackjackGame.__init__` (with the initial shuffled
deck given by `shuffled`). -/
def initGame (shuffled : List Card) : Game :=
  { deck := Deck.reset shuffled
    player_hand := ⟨[], 0⟩
    dealer_hand := ⟨[], 0⟩
    game_over := false
    player_wins := 0
    dealer_wins := 0
    ties := 0
    can_double := false
    can_split := false
    split_hands := []
    current_hand_index := 0
    is_split_game := false
    bet_size := 0
    total_winnings := 0
    doubled := false }

/-- `BlackjackGame.set_bet`: reject non-positive amounts without touching the
state; otherwise record the bet and accept. -/
def set_bet (amount : Int) (g : Game) : Bool × Game :=
  if amount ≤ 0 then (false, g)
  else (true, { g with bet_size := amount })

/-- One iteration of the split-hand loop of `BlackjackGame.get_payout`: the
per-hand contribution to `total_payout`. -/
def splitHandPayout (dealer : Hand) (split_bet : Int) (h : Hand) : Int :=
  if h.is_bust then -split_bet
  else if dealer.is_bust then split_bet
  else if h.get_value = 21 ∧ ¬ dealer.is_blackjack then split_bet
  else if dealer.is_blackjack ∧ ¬ h.is_blackjack then -split_bet
  else if h.get_value > dealer.get_value then split_bet
  else if dealer.get_value > h.get_value then -split_bet
  else 0

/-- `BlackjackGame.get_payout`.  The method performs no assignment, so its
statement-by-statement translation returns the unchanged state alongside the
payout in every branch.  Python's `int(bet * 1.5 * mult)` truncates toward
zero, which is `Int.div` of `3 * bet * mult` by 2. -/
def get_payout (g : Game) : Int × Game :=
  if g.bet_size = 0 then (0, g)
  else if g.is_split_game then
    let split_bet := g.bet_size
    (g.split_hands.foldl (fun acc h => acc + splitHandPayout g.dealer_hand split_bet h) 0, g)
  else
    let mult : Int := if g.doubled then 2 else 1
    if g.player_hand.is_bust then (-g.bet_size * mult, g)
    else if g.dealer_hand.is_bust then (g.bet_size * mult, g)
    else if g.player_hand.is_blackjack ∧ ¬ g.dealer_hand.is_blackjack then
      ((3 * g.bet_size * mult).tdiv 2, g)
    else if g.dealer_hand.is_blackjack ∧ ¬ g.player_hand.is_blackjack then
      (-g.bet_size * mult, g)
    else if g.player_hand.get_value > g.dealer_hand.get_value then (g.bet_size * mult, g)
    else if g.dealer_hand.get_value > g.player_hand.get_value then (-g.bet_size * mult, g)
    else (0, g)

/-- The payout value computed by `BlackjackGame.get_payout`. -/
def getPayoutVal (g : Game) : Int := (get_payout g).1

/-- Per-hand round outcome recorded by the statistics counters. -/
inductive Outcome
  | pwin | dwin | tie
deriving DecidableEq, Repr

/-- One iteration of the split-hand loop of `BlackjackGame.end_game`: which
counter this hand increments.  Note the third branch tests `is_blackjack`,
unlike the corresponding `get_payout` branch which tests `get_value == 21`. -/
def splitHandOutcome (dealer : Hand) (h : Hand) : Outcome :=
  if h.is_bust then .dwin
  else if dealer.is_bust then .pwin
  else if h.is_blackjack ∧ ¬ dealer.is_blackjack then .pwin
  else if dealer.is_blackjack ∧ ¬ h.is_blackjack then .dwin
  else if h.get_value > dealer.get_value then .pwin
  else if dealer.get_value > h.get_value then .dwin
  else .tie

/-- The non-split outcome ladder of `BlackjackGame.end_game`. -/
def regularOutcome (p d : Hand) : Outcome :=
  if p.is_bust then .dwin
  else if d.is_bust then .pwin
  else if p.is_blackjack ∧ ¬ d.is_blackjack then .pwin
  else if d.is_blackjack ∧ ¬ p.is_blackjack then .dwin
  else if p.get_value > d.get_value then .pwin
  else if d.get_value > p.get_value then .dwin
  else .tie

/-- Accumulate one outcome into (playerWins, dealerWins, ties). -/
def tallyAdd (acc : Nat × Nat × Nat) (o : Outcome) : Nat × Nat × Nat :=
  match o with
  | .pwin => (acc.1 + 1, acc.2.1, acc.2.2)
  | .dwin => (acc.1, acc.2.1 + 1, acc.2.2)
  | .tie => (acc.1, acc.2.1, acc.2.2 + 1)

/-- `BlackjackGame.update_money_tracking`: add the payout to
`total_winnings` unless no bet was placed. -/
def update_money_tracking (g : Game) : Game :=
  if g.bet_size = 0 then g
  else { g with total_winnings := g.total_winnings + (get_payout g).1 }

/-- `BlackjackGame.end_game`: set `game_over`, update money tracking, log
(the log only prints, so it does not appear here), then increment the
win/loss/tie counters. -/
def end_game (g : Game) : Game :=
  let g1 : Game := { g with game_over := true }
  let g2 := update_money_tracking g1
  if g2.is_split_game then
    let t := g2.split_hands.foldl
      (fun acc h => tallyAdd acc (splitHandOutcome g2.dealer_hand h)) (0, 0, 0)
    { g2 with
        player_wins := g2.player_wins + t.1
        dealer_wins := g2.dealer_wins + t.2.1
        ties := g2.ties + t.2.2 }
  else
    match regularOutcome g2.player_hand g2.dealer_hand with
    | .pwin => { g2 with player_wins := g2.player_wins + 1 }
    | .dwin => { g2 with dealer_wins := g2.dealer_wins + 1 }
    | .tie => { g2 with ties := g2.ties + 1 }

/-- `BlackjackGame.start_new_game`: reshuffle when the penetration trigger
holds, clear both hands, reset all round flags, and require a new bet. -/
def start_new_game (shuffled : List Card) (g : Game) : String × Game :=
  let dk := if g.deck.should_shuffle then Deck.reset shuffled else g.deck
  let note := if g.deck.should_shuffle then "Deck shuffled!" else ""
  (note,
    { g with
        deck := dk
        player_hand := g.player_hand.clear
        dealer_hand := g.dealer_hand.clear
        game_over := false
        can_double := false
        can_split := false
        split_hands := []
        current_hand_index := 0
        is_split_game := false
        bet_size := 0
        doubled := false })

/-- `BlackjackGame.get_current_hand`: the active split hand when a split game
is in progress (Python raises IndexError — `none` — on a bad index),
otherwise the player hand. -/
def get_current_hand (g : Game) : Option Hand :=
  if g.is_split_game = true ∧ g.split_hands ≠ [] then
    g.split_hands.get? g.current_hand_index
  else some g.player_hand

/-- Apply `f` to the current hand in place (Python mutates the aliased
`Hand` object; here the updated hand is written back to its slot).  Returns
the updated hand together with the updated state. -/
def withCurrentHand (g : Game) (f : Hand → Hand) : Option (Hand × Game) :=
  if g.is_split_game = true ∧ g.split_hands ≠ [] then
    match g.split_hands.get? g.current_hand_index with
    | none => none
    | some cur =>
      some (f cur, { g with split_hands := g.split_hands.set g.current_hand_index (f cur) })
  else
    some (f g.player_hand, { g with player_hand := f g.player_hand })

/-- `BlackjackGame.hit`: deal a card to the current hand, disable doubling,
and on a bust either advance to the next split hand or end the round. -/
def hit (shuffled : List Card) (g : Game) : Option Game :=
  if g.game_over = true then some g
  else
    match Deck.deal shuffled g.deck with
    | none => none
    | some (c, d) =>
      match withCurrentHand { g with deck := d } (fun h => h.add_card c) with
      | none => none
      | some (cur, g1) =>
        let g2 := { g1 with can_double := false }
        if cur.is_bust then
          if g2.is_split_game = true ∧ g2.current_hand_index < g2.split_hands.length - 1 then
            some { g2 with current_hand_index := g2.current_hand_index + 1 }
          else some (end_game g2)
        else some g2

/-- The dealer loop (`BlackjackGame.dealer_play`): hit while the dealer's
value is below 17.  Each card adds at least 1 to the hand's value, so the
loop needs fewer iterations than the `fuel` bound used at call sites;
`none` marks fuel exhaustion or an empty reshuffle order. -/
def dealerPlay (shuffled : List Card) : Nat → Deck → Hand → Option (Deck × Hand)
  | 0, d, h => if h.get_value < 17 then none else some (d, h)
  | n + 1, d, h =>
    if h.get_value < 17 then
      match Deck.deal shuffled d with
      | none => none
      | some (c, d') => dealerPlay shuffled n d' (h.add_card c)
    else some (d, h)

/-- `BlackjackGame.stand`: advance to the next split hand (re-enabling
double), or let the dealer play and end the round. -/
def stand (shuffled : List Card) (g : Game) : Option Game :=
  if g.game_over = true then some g
  else
    if g.is_split_game = true ∧ g.current_hand_index < g.split_hands.length - 1 then
      some { g with current_hand_index := g.current_hand_index + 1, can_double := true }
    else
      match dealerPlay shuffled 52 g.deck g.dealer_hand with
      | none => none
      | some (d, dh) => some (end_game { g with deck := d, dealer_hand := dh })

/-- `BlackjackGame.double`: deal exactly one card, clear `can_double`, set
`doubled`; on a bust use the same advance/end logic as `hit`, otherwise
auto-stand (advance, or `stand` which triggers dealer play). -/
def double (shuffled : List Card) (g : Game) : Option Game :=
  if g.game_over = false ∧ g.can_double = true then
    match Deck.deal shuffled g.deck with
    | none => none
    | some (c, d) =>
      match withCurrentHand { g with deck := d } (fun h => h.add_card c) with
      | none => none
      | some (cur, g1) =>
        let g2 := { g1 with can_double := false, doubled := true }
        if cur.is_bust then
          if g2.is_split_game = true ∧ g2.current_hand_index < g2.split_hands.length - 1 then
            some { g2 with current_hand_index := g2.current_hand_index + 1 }
          else some (end_game g2)
        else
          if g2.is_split_game = true ∧ g2.current_hand_index < g2.split_hands.length - 1 then
            some { g2 with current_hand_index := g2.current_hand_index + 1 }
          else stand shuffled g2
  else some g

/-- `BlackjackGame.split`: replace the pair with two fresh two-card hands,
each holding one original card plus one newly dealt card, and reset the
cursor; `can_split` is cleared and `can_double` re-enabled. -/
def split (shuffled : List Card) (g : Game) : Option Game :=
  if g.game_over = false ∧ g.can_split = true ∧ g.player_hand.cards.length = 2 then
    match g.player_hand.cards.get? 0, g.player_hand.cards.get? 1 with
    | some card1, some card2 =>
      match Deck.deal shuffled g.deck with
      | none => none
      | some (c3, d1) =>
        match Deck.deal shuffled d1 with
        | none => none
        | some (c4, d2) =>
          some { g with
                  deck := d2
                  split_hands := [⟨[card1, c3], 0⟩, ⟨[card2, c4], 0⟩]
                  is_split_game := true
                  current_hand_index := 0
                  can_split := false
                  can_double := true }
    | _, _ => none
  else some g

/-- `BlackjackGame.deal_initial_cards`: clear the round state, deal
player/dealer/player/dealer, end immediately on a natural blackjack, and
otherwise enable double (two-card hand) and split (equal card values). -/
def deal_initial_cards (shuffled : List Card) (g : Game) : Option Game :=
  let g0 : Game :=
    { g with
        player_hand := g.player_hand.clear
        dealer_hand := g.dealer_hand.clear
        split_hands := []
        current_hand_index := 0
        is_split_game := false
        game_over := false
        can_double := false
        can_split := false
        doubled := false }
  match Deck.deal shuffled g0.deck with
  | none => none
  | some (c1, d1) =>
  match Deck.deal shuffled d1 with
  | none => none
  | some (c2, d2) =>
  match Deck.deal shuffled d2 with
  | none => none
  | some (c3, d3) =>
  match Deck.deal shuffled d3 with
  | none => none
  | some (c4, d4) =>
  let g4 : Game :=
    { g0 with
        deck := d4
        player_hand := (g0.player_hand.add_card c1).add_card c3
        dealer_hand := (g0.dealer_hand.add_card c2).add_card c4 }
  if g4.player_hand.is_blackjack ∨ g4.dealer_hand.is_blackjack then
    some (end_game g4)
  else
    let g5 := if g4.player_hand.cards.length = 2 then { g4 with can_double := true } else g4
    let g6 :=
      match g5.player_hand.cards.get? 0, g5.player_hand.cards.get? 1 with
      | some a, some b =>
        if g5.player_hand.cards.length = 2 ∧ a.get_value = b.get_value then
          { g5 with can_split := true }
        else g5
      | _, _ => g5
    some g6

/-- An empty base state used to build concrete test states. -/
def baseGame : Game := initGame []

/-- Pre-split state for C2: a pair of aces, split allowed, and the two cards
on top of the deck are a king and a queen. -/
def gC2 : Game :=
  { baseGame with
      player_hand := ⟨[⟨.hearts, .ace⟩, ⟨.spades, .ace⟩], 0⟩
      deck := ⟨[⟨.diamonds, .queen⟩, ⟨.diamonds, .king⟩]⟩
      can_split := true
      bet_size := 10 }

/-- C2: the natural-blackjack predicate is NOT restricted to non-split
hands.  Splitting a pair of aces and drawing a king and a queen produces two
hands that each have exactly two cards and value 21, and `is_blackjack`
returns `true` for both — the split-origin disqualification demanded by the
claim is absent (the source marks it `#TODO`). -/
theorem c2_split_blackjack_bug :
    (BJ.split [] gC2).map
        (fun g => g.split_hands.map (fun h => (h.cards.length, h.get_value, h.is_blackjack)))
      = some [(2, 21, true), (2, 21, true)] := by
  decide

/-- Settled state for C3: a split game with two two-card 21s against a
dealer natural blackjack, bet 10 per hand. -/
def gC3 : Game :=
  { baseGame with
      bet_size := 10
      is_split_game := true
      game_over := true
      split_hands := [⟨[⟨.hearts, .ace⟩, ⟨.spades, .r10⟩], 0⟩,
                      ⟨[⟨.diamonds, .ace⟩, ⟨.clubs, .king⟩], 0⟩]
      dealer_hand := ⟨[⟨.spades, .ace⟩, ⟨.spades, .king⟩], 0⟩ }

/-- C3: a split two-card 21 against a dealer natural blackjack settles as a
push, not a loss.  Because `is_blackjack` lacks the split-origin check, the
rule-5 branch (`dealer.is_blackjack() and not hand.is_blackjack()`) does not
fire and the comparison 21 vs 21 falls through to the push case: each hand
contributes 0 instead of the claimed −10, so the round pays 0 rather
than −20. -/
theorem c3_split21_vs_dealer_blackjack_push :
    splitHandPayout gC3.dealer_hand 10 ⟨[⟨.hearts, .ace⟩, ⟨.spades, .r10⟩], 0⟩ = 0 ∧
    getPayoutVal gC3 = 0 := by
  decide

/-- A deck holding exactly 26 cards (50% of capacity). -/
def deck26 : Deck := ⟨fullDeck.take 26⟩

/-- C4 counterexample: at exactly 26 remaining cards the penetration trigger
holds, yet `deal` does not repopulate the shoe — it pops from the existing
26 cards, leaving 25 (the claim demands a fresh 52-card set first, which
would leave 51). -/
theorem c4_no_reshuffle_at_penetration :
    Deck.should_shuffle deck26 = true ∧
    (Deck.deal fullDeck deck26).map (fun p => p.2.cards.length) = some 25 := by
  decide

/-- Settled state for C6: a doubled split game (bet 20) whose two hands
stand at 21 and 18 while the dealer busts at 26. -/
def gC6 : Game :=
  { baseGame with
      bet_size := 20
      is_split_game := true
      game_over := true
      doubled := true
      split_hands := [⟨[⟨.hearts, .r5⟩, ⟨.hearts, .r6⟩, ⟨.hearts, .r10⟩], 0⟩,
                      ⟨[⟨.hearts, .r9⟩, ⟨.spades, .r9⟩], 0⟩]
      dealer_hand := ⟨[⟨.spades, .r10⟩, ⟨.diamonds, .r6⟩, ⟨.diamonds, .r10⟩], 0⟩ }

/-- C6 counterexample: the split-game payout path never reads the `doubled`
flag.  With bet 20, a doubled split hand, and a busted dealer, the round
pays 20 + 20 = 40 — not the 40 + 20 = 60 the claim requires for a doubled
split hand — and flipping `doubled` does not change the payout at all. -/
theorem c6_split_double_ignored :
    getPayoutVal gC6 = 40 ∧ getPayoutVal { gC6 with doubled := false } = 40 := by
  decide

/-- Settled state for C7: a split game (bet 10) whose first hand drew to a
three-card 21, whose second hand busted, against a dealer three-card 21. -/
def gC7 : Game :=
  { baseGame with
      bet_size := 10
      is_split_game := true
      split_hands := [⟨[⟨.hearts, .r8⟩, ⟨.hearts, .r5⟩, ⟨.spades, .r8⟩], 0⟩,
                      ⟨[⟨.diamonds, .r8⟩, ⟨.hearts, .r10⟩, ⟨.hearts, .r9⟩], 0⟩]
      dealer_hand := ⟨[⟨.spades, .r10⟩, ⟨.spades, .r5⟩, ⟨.spades, .r6⟩], 0⟩ }

/-- C7: the statistics counters disagree with the settlement.  The first
hand (three-card 21 versus a dealer three-card 21) settles at +10 — the
`get_payout` split loop tests `get_value == 21` — but `end_game`'s counter
loop tests `is_blackjack`, so that same hand falls through to the tie
branch: the round increments `ties` (and `dealer_wins` for the busted second
hand) while `player_wins` stays 0, although a hand was paid a positive
amount. -/
theorem c7_stats_settlement_mismatch :
    splitHandPayout gC7.dealer_hand 10 ⟨[⟨.hearts, .r8⟩, ⟨.hearts, .r5⟩, ⟨.spades, .r8⟩], 0⟩ = 10 ∧
    (end_game gC7).player_wins = 0 ∧
    (end_game gC7).dealer_wins = 1 ∧
    (end_game gC7).ties = 1 := by
  decide

/-- C8: `set_bet` declines every non-positive amount and leaves the state
untouched; every positive amount is accepted and only `bet_size` changes. -/
theorem c8_set_bet_guard (g : Game) (amount : Int) :
    (amount ≤ 0 → set_bet amount g = (false, g)) ∧
    (0 < amount → set_bet amount g = (true, { g with bet_size := amount })) := by
  constructor
  · intro h
    unfold set_bet
    rw [if_pos h]
  · intro h
    unfold set_bet
    rw [if_neg (by omega)]

/-- Witness for C8 at amounts 0 and 10. -/
theorem c8_set_bet_guard_witness :
    set_bet 0 baseGame = (false, baseGame) ∧
    set_bet 10 baseGame = (true, { baseGame with bet_size := 10 }) :=
  ⟨(c8_set_bet_guard baseGame 0).1 (by decide),
   (c8_set_bet_guard baseGame 10).2 (by decide)⟩

/-- `get_payout` returns the state unchanged: every branch pairs its payout
with the incoming state. -/
lemma get_payout_frame (g : Game) : (get_payout g).2 = g := by
  unfold get_payout
  dsimp only
  repeat' split
  all_goals rfl

/-- C10: `get_payout` is a pure read — the state it returns is exactly the
state it was given (deck, hands, flags and counters untouched), and calling
it again on that state yields the same payout value. -/
theorem c10_get_payout_pure (g : Game) :
    (get_payout g).2 = g ∧
    (get_payout (get_payout g).2).1 = (get_payout g).1 := by
  have h := get_payout_frame g
  exact ⟨h, by rw [h]⟩

/-- C4 amended: `deal` repopulates the shoe only when it is empty — a
nonempty shoe is popped as-is even at or below 26 remaining cards — and the
penetration reshuffle (trigger: at most 26 = 50% of 52 remaining) happens
exactly when `start_new_game` requests it. -/
theorem c4_amended_reshuffle_policy (d : Deck) (shuffled : List Card) (g : Game) :
    (d.cards ≠ [] →
      (Deck.deal shuffled d).map (fun p => p.2.cards) = some d.cards.dropLast) ∧
    (d.cards = [] →
      Deck.deal shuffled d = shuffled.getLast?.map (fun c => (c, ⟨shuffled.dropLast⟩))) ∧
    ((start_new_game shuffled g).2.deck
      = if g.deck.should_shuffle then Deck.reset shuffled else g.deck) ∧
    (Deck.should_shuffle d = true ↔ d.cards.length ≤ 26) := by
  refine ⟨fun h => ?_, fun h => ?_, ?_, ?_⟩
  · unfold Deck.deal
    dsimp only
    rw [if_neg h, List.getLast?_eq_getLast d.cards h]
    rfl
  · unfold Deck.deal Deck.reset
    dsimp only
    rw [if_pos h]
    cases e : shuffled.getLast? <;> simp [e]
  · unfold start_new_game
    rfl
  · unfold Deck.should_shuffle originalSize
    simp

/-- Witness for C4's amended statement: popping a full 52-card deck leaves
its first 51 cards; an empty deck is repopulated from the fresh order; a
26-card deck triggers the penetration check. -/
theorem c4_amended_reshuffle_policy_witness :
    (Deck.deal fullDeck ⟨fullDeck⟩).map (fun p => p.2.cards) = some fullDeck.dropLast ∧
    Deck.deal fullDeck ⟨[]⟩ = fullDeck.getLast?.map (fun c => (c, ⟨fullDeck.dropLast⟩)) ∧
    Deck.should_shuffle deck26 = true :=
  ⟨(c4_amended_reshuffle_policy ⟨fullDeck⟩ fullDeck baseGame).1 (by decide),
   (c4_amended_reshuffle_policy ⟨[]⟩ fullDeck baseGame).2.1 rfl,
   (c4_amended_reshuffle_policy deck26 fullDeck baseGame).2.2.2.mpr (by decide)⟩

/-- `update_money_tracking` changes at most `total_winnings`. -/
lemma update_money_tracking_proj (g : Game) :
    (update_money_tracking g).bet_size = g.bet_size ∧
    (update_money_tracking g).can_split = g.can_split ∧
    (update_money_tracking g).is_split_game = g.is_split_game := by
  unfold update_money_tracking
  split <;> exact ⟨rfl, rfl, rfl⟩

/-- `end_game` changes only `game_over`, `total_winnings` and the three
counters. -/
lemma end_game_proj (g : Game) :
    (end_game g).bet_size = g.bet_size ∧
    (end_game g).can_split = g.can_split ∧
    (end_game g).is_split_game = g.is_split_game := by
  unfold end_game update_money_tracking
  dsimp only
  repeat' split
  all_goals exact ⟨rfl, rfl, rfl⟩

/-- `withCurrentHand` rewrites one hand slot and nothing else. -/
lemma withCurrentHand_proj (g : Game) (f : Hand → Hand) (p : Hand × Game)
    (h : withCurrentHand g f = some p) :
    p.2.bet_size = g.bet_size ∧ p.2.can_split = g.can_split ∧
    p.2.is_split_game = g.is_split_game := by
  unfold withCurrentHand at h
  split at h
  · cases e : g.split_hands.get? g.current_hand_index <;> rw [e] at h
    · exact Option.noConfusion h
    · injection h with h1
      subst h1
      exact ⟨rfl, rfl, rfl⟩
  · injection h with h1
    subst h1
    exact ⟨rfl, rfl, rfl⟩

/-- `stand` never changes `bet_size`, `can_split` or `is_split_game`. -/
lemma stand_proj (shuffled : List Card) (g g' : Game) (h : stand shuffled g = some g') :
    g'.bet_size = g.bet_size ∧ g'.can_split = g.can_split ∧
    g'.is_split_game = g.is_split_game := by
  unfold stand at h
  split at h
  · injection h with h1
    subst h1
    exact ⟨rfl, rfl, rfl⟩
  · split at h
    · injection h with h1
      subst h1
      exact ⟨rfl, rfl, rfl⟩
    · cases e : dealerPlay shuffled 52 g.deck g.dealer_hand <;> rw [e] at h
      · exact Option.noConfusion h
      · injection h with h1
        subst h1
        exact end_game_proj _

/-- `double` never changes `bet_size`, `can_split` or `is_split_game`:
Python's `double` sets `doubled` but leaves `self.bet_size` alone. -/
lemma double_proj (shuffled : List Card) (g g' : Game) (h : double shuffled g = some g') :
    g'.bet_size = g.bet_size ∧ g'.can_split = g.can_split ∧
    g'.is_split_game = g.is_split_game := by
  unfold double at h
  split at h
  case isFalse =>
    injection h with h1
    subst h1
    exact ⟨rfl, rfl, rfl⟩
  case isTrue =>
    cases e1 : Deck.deal shuffled g.deck <;> rw [e1] at h
    · exact Option.noConfusion h
    case some cd =>
      obtain ⟨c, d⟩ := cd
      dsimp only at h
      cases e2 : withCurrentHand { g with deck := d } (fun hh => hh.add_card c) <;>
        rw [e2] at h
      · exact Option.noConfusion h
      case some p =>
        obtain ⟨cur, g1⟩ := p
        have hw := withCurrentHand_proj { g with deck := d } (fun hh => hh.add_card c) (cur, g1) e2
        dsimp only at h hw
        split at h
        · split at h
          · injection h with h1
            subst h1
            exact ⟨hw.1, hw.2.1, hw.2.2⟩
          · injection h with h1
            subst h1
            have he := end_game_proj { g1 with can_double := false, doubled := true }
            exact ⟨he.1.trans hw.1, he.2.1.trans hw.2.1, he.2.2.trans hw.2.2⟩
        · split at h
          · injection h with h1
            subst h1
            exact ⟨hw.1, hw.2.1, hw.2.2⟩
          · have hs := stand_proj shuffled { g1 with can_double := false, doubled := true } g' h
            exact ⟨hs.1.trans hw.1, hs.2.1.trans hw.2.1, hs.2.2.trans hw.2.2⟩

/-- A non-split doubled round used as the C6 witness: player stands on 21,
dealer busts at 26, bet 20. -/
def gNS : Game :=
  { baseGame with
      bet_size := 20
      doubled := true
      game_over := true
      player_hand := ⟨[⟨.hearts, .r5⟩, ⟨.hearts, .r6⟩, ⟨.diamonds, .r10⟩], 0⟩
      dealer_hand := ⟨[⟨.spades, .r10⟩, ⟨.diamonds, .r6⟩, ⟨.diamonds, .r10⟩], 0⟩ }

/-- C6 amended: doubling never touches the wager field (`double` leaves
`bet_size` unchanged and records a `doubled` flag instead); settlement
doubles the amount only for non-split hands (for example a doubled,
non-busted hand against a busted dealer pays twice the bet), while the
split-hand settlement ignores the `doubled` flag entirely. -/
theorem c6_amended_double_payout (g : Game) (shuffled : List Card) :
    (g.is_split_game = true →
      getPayoutVal { g with doubled := true } = getPayoutVal { g with doubled := false }) ∧
    (∀ g', double shuffled g = some g' → g'.bet_size = g.bet_size) ∧
    (g.is_split_game = false → g.doubled = true →
      g.player_hand.is_bust = false → g.dealer_hand.is_bust = true →
      getPayoutVal g = 2 * g.bet_size) := by
  refine ⟨fun h => ?_, fun g' hg' => (double_proj shuffled g g' hg').1, fun h1 h2 h3 h4 => ?_⟩
  · simp only [getPayoutVal, get_payout]
    simp only [h]
    split <;> rfl
  · by_cases hb : g.bet_size = 0
    · simp [getPayoutVal, get_payout, hb]
    · simp only [getPayoutVal, get_payout]
      rw [if_neg hb, if_neg (by simp [h1]), if_neg (by simp [h3]), if_pos (by simp [h4])]
      simp [h2, Int.mul_comm]

/-- Witness for C6's amended statement: on the concrete split round `gC6`
flipping `doubled` leaves the payout unchanged, and on the concrete
non-split doubled round `gNS` the payout is twice the bet. -/
theorem c6_amended_double_payout_witness :
    getPayoutVal { gC6 with doubled := true } = getPayoutVal { gC6 with doubled := false } ∧
    getPayoutVal gNS = 2 * gNS.bet_size :=
  ⟨(c6_amended_double_payout gC6 []).1 rfl,
   (c6_amended_double_payout gNS []).2.2 rfl rfl (by decide) (by decide)⟩

/-- `hit` never changes `can_split` or `is_split_game`. -/
lemma hit_proj (shuffled : List Card) (g g' : Game) (h : hit shuffled g = some g') :
    g'.can_split = g.can_split ∧ g'.is_split_game = g.is_split_game := by
  unfold hit at h
  split at h
  · injection h with h1
    subst h1
    exact ⟨rfl, rfl⟩
  · cases e1 : Deck.deal shuffled g.deck <;> rw [e1] at h
    · exact Option.noConfusion h
    case some cd =>
      obtain ⟨c, d⟩ := cd
      dsimp only at h
      cases e2 : withCurrentHand { g with deck := d } (fun hh => hh.add_card c) <;>
        rw [e2] at h
      · exact Option.noConfusion h
      case some p =>
        obtain ⟨cur, g1⟩ := p
        have hw := withCurrentHand_proj { g with deck := d } (fun hh => hh.add_card c) (cur, g1) e2
        dsimp only at h hw
        split at h
        · split at h
          · injection h with h1
            subst h1
            exact ⟨hw.2.1, hw.2.2⟩
          · injection h with h1
            subst h1
            have he := end_game_proj { g1 with can_double := false }
            exact ⟨he.2.1.trans hw.2.1, he.2.2.trans hw.2.2⟩
        · injection h with h1
          subst h1
          exact ⟨hw.2.1, hw.2.2⟩

/-- `split` establishes the state invariant `is_split_game → ¬can_split`:
when the guard passes it clears `can_split` while setting `is_split_game`;
otherwise the state is unchanged. -/
lemma split_inv (shuffled : List Card) (g g' : Game)
    (h : BJ.split shuffled g = some g')
    (hg : g.is_split_game = true → g.can_split = false) :
    g'.is_split_game = true → g'.can_split = false := by
  unfold BJ.split at h
  split at h
  · split at h
    · cases e1 : Deck.deal shuffled g.deck <;> rw [e1] at h
      · exact Option.noConfusion h
      case some cd =>
        obtain ⟨c3, d1⟩ := cd
        dsimp only at h
        cases e2 : Deck.deal shuffled d1 <;> rw [e2] at h
        · exact Option.noConfusion h
        case some cd' =>
          obtain ⟨c4, d2⟩ := cd'
          dsimp only at h
          injection h with h1
          subst h1
          intro _
          rfl
    · exact Option.noConfusion h
  · injection h with h1
    subst h1
    exact hg

/-- `deal_initial_cards` always leaves `is_split_game = false` (it resets
the split state before dealing, and `end_game` does not change it). -/
lemma deal_initial_cards_inv (shuffled : List Card) (g g' : Game)
    (h : deal_initial_cards shuffled g = some g') :
    g'.is_split_game = false := by
  unfold deal_initial_cards at h
  dsimp only at h
  repeat' split at h
  all_goals first
    | exact Option.noConfusion h
    | (injection h with h1; subst h1; rfl)
    | (injection h with h1; subst h1; exact (end_game_proj _).2.2.trans rfl)

/-- `set_bet` and `start_new_game` preserve the invariant
`is_split_game → ¬can_split` (the latter re-establishes it outright). -/
lemma set_bet_start_inv (amount : Int) (shuffled : List Card) (g : Game)
    (hg : g.is_split_game = true → g.can_split = false) :
    ((set_bet amount g).2.is_split_game = true → (set_bet amount g).2.can_split = false) ∧
    ((start_new_game shuffled g).2.is_split_game = true →
      (start_new_game shuffled g).2.can_split = false) := by
  constructor
  · unfold set_bet
    split
    · exact hg
    · exact hg
  · intro _
    rfl

/-- A finished round used as the C9 witness. -/
def gOver : Game := { baseGame with game_over := true }

/-- C9: while `game_over` holds, `hit`, `stand`, `double` and `split` all
return the state unchanged; `double` is also a no-op whenever `can_double`
is false, and `split` whenever `can_split` is false or the current hand does
not hold exactly two cards.  The hypothesis `is_split_game → ¬can_split` is
an invariant of every reachable state (established by `initGame`,
`start_new_game`, `deal_initial_cards` and `split_inv`, and preserved by
`set_bet_start_inv`, `hit_proj`, `stand_proj`, `double_proj`); under it the
current hand that `split` examines is exactly `player_hand`, as in the
source. -/
theorem c9_illegal_actions_noop (g : Game) (shuffled : List Card)
    (hinv : g.is_split_game = true → g.can_split = false) :
    (g.game_over = true →
      hit shuffled g = some g ∧ stand shuffled g = some g ∧
      double shuffled g = some g ∧ BJ.split shuffled g = some g) ∧
    (g.can_double = false → double shuffled g = some g) ∧
    (g.can_split = false → BJ.split shuffled g = some g) ∧
    (∀ h, get_current_hand g = some h → h.cards.length ≠ 2 →
      BJ.split shuffled g = some g) := by
  refine ⟨fun hgo => ⟨?_, ?_, ?_, ?_⟩, fun hcd => ?_, fun hcs => ?_, fun h hcur hlen => ?_⟩
  · simp [hit, hgo]
  · simp [stand, hgo]
  · simp [double, hgo]
  · simp [BJ.split, hgo]
  · simp [double, hcd]
  · simp [BJ.split, hcs]
  · by_cases hcs : g.can_split = true
    · have hsp : g.is_split_game = false := by
        cases e : g.is_split_game
        · rfl
        · exact absurd (hinv e) (by simp [hcs])
      unfold get_current_hand at hcur
      rw [if_neg (by simp [hsp])] at hcur
      injection hcur with hh
      subst hh
      simp [BJ.split, hlen]
    · have hcs' : g.can_split = false := by
        cases e : g.can_split
        · rfl
        · exact absurd e hcs
      simp [BJ.split, hcs']

/-- Witness for C9 on the concrete finished round `gOver` (which also has
`can_double = false`, `can_split = false`, and a 0-card current hand). -/
theorem c9_illegal_actions_noop_witness :
    (hit [] gOver = some gOver ∧ stand [] gOver = some gOver ∧
      double [] gOver = some gOver ∧ BJ.split [] gOver = some gOver) ∧
    double [] gOver = some gOver ∧
    BJ.split [] gOver = some gOver :=
  ⟨(c9_illegal_actions_noop gOver [] (fun hh => absurd hh (by decide))).1 rfl,
   (c9_illegal_actions_noop gOver [] (fun hh => absurd hh (by decide))).2.1 rfl,
   (c9_illegal_actions_noop gOver [] (fun hh => absurd hh (by decide))).2.2.2
     gOver.player_hand rfl (by decide)⟩

/-- Modelled from the spec: the Hi-Lo `countValue` of a card value (−1 for
{10, J, Q, K, A}, +1 for {2..6}, 0 for {7, 8, 9}).  The card-counting
feature belongs to a source variant that is not under `src/`; spec §4.2 and
§3 are the authority for these definitions. -/
def countValue (r : Rank) : Int :=
  match r with
  | .r10 | .jack | .queen | .king | .ace => -1
  | .r2 | .r3 | .r4 | .r5 | .r6 => 1
  | .r7 | .r8 | .r9 => 0

/-- Modelled from the spec: the counting shoe — a card stack (top = end)
plus the Hi-Lo running count. -/
structure CDeck where
  cards : List Card
  runningCount : Int
deriving DecidableEq, Repr

/-- Modelled from the spec: a reshuffle repopulates the shoe with one full
fresh 52-card set (`shuffled` stands for the random order) and resets
`runningCount` to 0. -/
def CDeck.reshuffle (shuffled : List Card) : CDeck := ⟨shuffled, 0⟩

/-- Modelled from the spec: `deal()` — if the shoe is empty or the 50%
penetration trigger (at most 26 remaining) holds, reshuffle first; then pop
the top card, add its `countValue` to `runningCount`, and return it. -/
def CDeck.deal (shuffled : List Card) (d : CDeck) : Option (Card × CDeck) :=
  let d1 := if d.cards = [] ∨ d.cards.length ≤ 26 then CDeck.reshuffle shuffled else d
  match d1.cards.getLast? with
  | none => none
  | some c => some (c, ⟨d1.cards.dropLast, d1.runningCount + countValue c.value⟩)

/-- Modelled from the spec: `trueCount()` = `runningCount / (remaining /
52)`, documented as 0 when no cards remain (the spec leaves the empty case
as an implementer's choice). -/
def CDeck.trueCount (d : CDeck) : ℚ :=
  if d.cards.length = 0 then 0
  else (d.runningCount : ℚ) / ((d.cards.length : ℚ) / 52)

/-- C5 (spec-modelled): the shoe keeps a Hi-Lo running count — `deal` adds
the dealt card's `countValue` (−1 / +1 / 0 by rank group) to the running
count, a reshuffle resets the count to 0, and `trueCount` is
`runningCount / (remaining / 52)`, with value 0 when no cards remain. -/
theorem c5_hilo_counting (shuffled : List Card) (d : CDeck) (c : Card) (d' : CDeck) :
    (countValue .r10 = -1 ∧ countValue .jack = -1 ∧ countValue .queen = -1 ∧
      countValue .king = -1 ∧ countValue .ace = -1 ∧
      countValue .r2 = 1 ∧ countValue .r3 = 1 ∧ countValue .r4 = 1 ∧
      countValue .r5 = 1 ∧ countValue .r6 = 1 ∧
      countValue .r7 = 0 ∧ countValue .r8 = 0 ∧ countValue .r9 = 0) ∧
    (CDeck.reshuffle shuffled).runningCount = 0 ∧
    (CDeck.deal shuffled d = some (c, d') →
      d'.runningCount =
        (if d.cards = [] ∨ d.cards.length ≤ 26 then 0 else d.runningCount)
          + countValue c.value) ∧
    (d.cards.length ≠ 0 →
      d.trueCount = (d.runningCount : ℚ) / ((d.cards.length : ℚ) / 52)) ∧
    (d.cards.length = 0 → d.trueCount = 0) := by
  refine ⟨by decide, rfl, fun hdeal => ?_, fun h => ?_, fun h => ?_⟩
  · unfold CDeck.deal at hdeal
    dsimp only at hdeal
    by_cases htrig : d.cards = [] ∨ d.cards.length ≤ 26
    · rw [if_pos htrig] at hdeal
      rw [if_pos htrig]
      cases e : (CDeck.reshuffle shuffled).cards.getLast? <;> rw [e] at hdeal
      · exact Option.noConfusion hdeal
      · injection hdeal with hp
        injection hp with hc hd
        subst hc
        subst hd
        rfl
    · rw [if_neg htrig] at hdeal
      rw [if_neg htrig]
      cases e : d.cards.getLast? <;> rw [e] at hdeal
      · exact Option.noConfusion hdeal
      · injection hdeal with hp
        injection hp with hc hd
        subst hc
        subst hd
        rfl
  · unfold CDeck.trueCount
    rw [if_neg h]
  · unfold CDeck.trueCount
    rw [if_pos h]

/-- A fresh counting shoe (52 cards, count 0). -/
def cdFresh : CDeck := ⟨fullDeck, 0⟩

/-- The shoe after dealing one card (the ace of spades, `countValue` −1)
from `cdFresh`: 51 cards remain and the running count is −1. -/
def cdAfter : CDeck := ⟨fullDeck.dropLast, -1⟩

/-- Witness for C5: dealing the ace of spades from a fresh 52-card shoe
adds −1 to the running count, and `trueCount` follows the spec formula both
before (0 / (52/52)) and after (−1 / (51/52)) the deal. -/
theorem c5_hilo_counting_witness :
    cdAfter.runningCount
        = (if cdFresh.cards = [] ∨ cdFresh.cards.length ≤ 26 then 0 else cdFresh.runningCount)
          + countValue Rank.ace ∧
    cdAfter.trueCount = (cdAfter.runningCount : ℚ) / ((cdAfter.cards.length : ℚ) / 52) ∧
    cdFresh.trueCount = (cdFresh.runningCount : ℚ) / ((cdFresh.cards.length : ℚ) / 52) :=
  ⟨(c5_hilo_counting fullDeck cdFresh ⟨.spades, .ace⟩ cdAfter).2.2.1 (by decide),
   (c5_hilo_counting fullDeck cdAfter ⟨.spades, .ace⟩ cdAfter).2.2.2.1 (by decide),
   (c5_hilo_counting fullDeck cdFresh ⟨.spades, .ace⟩ cdAfter).2.2.2.1 (by decide)⟩

end BJ
